import Mathlib

/-!
Shallow embedding of `vst_param_cascade` (src/vst_automation.py) in Lean 4.

The repository sweeps MIDI notes, CC numbers and CC values, rendering one
audio file per combination through an external plugin-hosting library.
We model the pure logic (note naming, sweep enumeration, file naming,
bundle-path resolution, directory scanning) directly from the source, and
the effectful parts (plugin render, file save, directory creation) as
explicit state passing: an environment of fallible operations where
`some e` stands for a raised exception with message `e` and `none` for
success, and the filesystem as explicit data.
-/

/-- Model of the `AutomationConfig` dataclass (vst_automation.py lines 17-23).
`duration` is a Python float used only as an opaque payload of the note-off
message and of the render call; we model it as a rational. -/
structure AutomationConfig where
  sample_rate : Nat
  duration : Rat
  note_min : Nat
  note_max : Nat
  output_dir : String := "output"
deriving Repr, DecidableEq

/-- Model of `midi_to_note_name` (vst_automation.py lines 25-29):
`notes[midi_number % 12]` concatenated with `str(midi_number // 12 - 1)`.
MIDI note numbers are nonnegative, so Python floor division agrees with
`Nat` division; the octave itself can be `-1`, hence `Int`. -/
def midi_to_note_name (midi_number : Nat) : String :=
  let notes : List String :=
    ["C", "C#", "D", "D#", "E", "F"] ++ ["F#", "G", "G#", "A", "A#", "B"]
  let octave : Int := (midi_number : Int) / 12 - 1
  let note_name : String := notes.getD (midi_number % 12) ""
  note_name ++ toString octave

/-- One iteration of the triple loop in `run_midi_cc_automation`
(vst_automation.py lines 64-67): a render job is determined by the note,
the CC number, its label, and the CC value. -/
structure RenderJob where
  note : Nat
  cc_num : Nat
  cc_label : String
  cc_val : Nat
deriving Repr, DecidableEq

/-- Jobs of the triple loop of `run_midi_cc_automation` (lines 64-67) for one
note: `for cc_num, cc_label in cc_mappings.items(): for cc_val in cc_values`.
A Python dict iterates in insertion order, which the association list keeps. -/
def jobsForNote (note : Nat) (cc_mappings : List (Nat × String))
    (cc_values : List Nat) : List RenderJob :=
  cc_mappings.flatMap fun p =>
    cc_values.map fun cc_val =>
      { note := note, cc_num := p.1, cc_label := p.2, cc_val := cc_val }

/-- The full enumeration of `run_midi_cc_automation` (lines 64-67):
`for note in range(config.note_min, config.note_max + 1)` around
`jobsForNote`.  `List.range' a (b + 1 - a)` is Python `range(a, b + 1)`,
including the empty range when `a > b`. -/
def sweepJobs (note_min note_max : Nat) (cc_mappings : List (Nat × String))
    (cc_values : List Nat) : List RenderJob :=
  (List.range' note_min (note_max + 1 - note_min)).flatMap fun note =>
    jobsForNote note cc_mappings cc_values

/-- Output filename computed at line 78: the f-string joining note_name,
"_cc", cc_num, "_", cc_label, "_", cc_val and ".wav". -/
def outputFilename (j : RenderJob) : String :=
  midi_to_note_name j.note ++ "_cc" ++ toString j.cc_num ++ "_" ++
    j.cc_label ++ "_" ++ toString j.cc_val ++ ".wav"

/-- Model of `os.path.join` with the posix separator. -/
def pjoin (a b : String) : String := a ++ "/" ++ b

/-- MIDI messages built at lines 68-72 (mido `Message` value objects). -/
inductive MidiMessage where
  | control_change (control : Nat) (value : Nat)
  | note_on (note : Nat) (velocity : Nat)
  | note_off (note : Nat) (velocity : Nat) (time : Rat)
deriving Repr, DecidableEq

/-- The fixed 3-message sequence of lines 68-72: control-change, note-on at
velocity 100, note-off at velocity 0 and time `config.duration`. -/
def messagesFor (config : AutomationConfig) (j : RenderJob) : List MidiMessage :=
  [MidiMessage.control_change j.cc_num j.cc_val,
   MidiMessage.note_on j.note 100,
   MidiMessage.note_off j.note 0 config.duration]

/-- Environment of external effects used by `run_midi_cc_automation`.
`render` models `self.plugin(messages, duration=..., sample_rate=...)`
(lines 74-76) and `save` models `save_audio`'s write to a filepath
(lines 45-52): `some e` means the call raised exception `e`, `none` means it
succeeded.  The audio payload itself is opaque and not modelled. -/
structure RenderEnv where
  render : List MidiMessage → Rat → Nat → Option String
  save : String → Option String

/-- Outcome of the rendering loop: which jobs had a render call issued,
which files were written (in write order), and the first raised error. -/
structure RunOutcome where
  rendered : List RenderJob
  written : List String
  err : Option String
deriving Repr, DecidableEq

/-- Shorthand for the render call of lines 74-76 on one job. -/
def renderCall (env : RenderEnv) (config : AutomationConfig) (j : RenderJob) :
    Option String :=
  env.render (messagesFor config j) config.duration config.sample_rate

/-- The body of the try-block of `run_midi_cc_automation` (lines 63-80) over
an explicit job list: each job is rendered then saved; the first exception
aborts the loop (Python propagates it out of the `for`), leaving the files
already written. -/
def runJobsAux (env : RenderEnv) (config : AutomationConfig) :
    List RenderJob → RunOutcome
  | [] => { rendered := [], written := [], err := none }
  | j :: rest =>
    match renderCall env config j with
    | some e => { rendered := [j], written := [], err := some e }
    | none =>
      let filepath := pjoin config.output_dir (outputFilename j)
      match env.save filepath with
      | some e => { rendered := [j], written := [], err := some e }
      | none =>
        let o := runJobsAux env config rest
        { rendered := j :: o.rendered, written := filepath :: o.written,
          err := o.err }

/-- Model of `os.makedirs(dir, exist_ok=True)` (line 61) on the set of
existing directories: idempotent, never raises. -/
def makedirs (d : String) (dirs : List String) : List String :=
  if d ∈ dirs then dirs else d :: dirs

/-- The loaded-plugin handle held in `self.plugin`; its contents are owned
by the external library and are opaque to this model. -/
structure PluginHandle where
  mk' ::
deriving Repr, DecidableEq

/-- Observable result of `run_midi_cc_automation`: the directories existing
afterwards, the jobs rendered, the files written, and the exception that
reached the caller (if any). -/
structure RunResult where
  dirs : List String
  rendered : List RenderJob
  written : List String
  err : Option String
deriving Repr, DecidableEq

/-- Model of `VSTAutomation.run_midi_cc_automation` (lines 54-86) given the
plugin state `self.plugin`, the effect environment and the initially existing
directories.  With no plugin it raises `RuntimeError` before touching the
filesystem (lines 58-59); otherwise it creates `output_dir` (line 61) and
runs the sweep, re-raising the first exception after logging (lines 84-86). -/
def run_midi_cc_automation (plugin : Option PluginHandle)
    (config : AutomationConfig) (cc_mappings : List (Nat × String))
    (cc_values : List Nat) (env : RenderEnv) (dirs0 : List String) : RunResult :=
  match plugin with
  | none =>
    { dirs := dirs0, rendered := [], written := [],
      err := some "Plugin not loaded. Call load_plugin() first." }
  | some _ =>
    let dirs := makedirs config.output_dir dirs0
    let o := runJobsAux env config
      (sweepJobs config.note_min config.note_max cc_mappings cc_values)
    { dirs := dirs, rendered := o.rendered, written := o.written, err := o.err }

/-- Model of Python `str.lower` on the ASCII paths this program handles. -/
def strToLower (s : String) : String := String.mk (s.data.map Char.toLower)

/-- Model of Python `str.endswith` for a single suffix. -/
def strEndsWith (s suffix : String) : Bool := suffix.data.isSuffixOf s.data

/-- Split a character list on a separator character, keeping empty groups,
as Python `str.split` with a one-character separator does. -/
def splitOnCharAux (sep : Char) : List Char → List (List Char)
  | [] => [[]]
  | c :: cs =>
    let r := splitOnCharAux sep cs
    if c = sep then [] :: r
    else
      match r with
      | [] => [[c]]
      | g :: gs => (c :: g) :: gs

/-- Split a path string on the posix separator. -/
def splitOnSlash (p : String) : List String :=
  (splitOnCharAux '/' p.data).map String.mk

/-- Model of Python `str.replace(old, new)` for nonempty `old`: every
non-overlapping occurrence, scanned left to right.  The fuel argument only
bounds the scan length so the recursion is structural; the wrapper passes
the input length, which is always enough. -/
def strReplaceFuel (old new : List Char) : Nat → List Char → List Char
  | _, [] => []
  | 0, s => s
  | fuel + 1, c :: cs =>
    if old.isPrefixOf (c :: cs) then
      new ++ strReplaceFuel old new fuel (cs.drop (old.length - 1))
    else c :: strReplaceFuel old new fuel cs

/-- Model of Python `str.replace(old, new)` (the source only replaces the
nonempty pattern `.vst3`). -/
def strReplace (s old new : String) : String :=
  String.mk (strReplaceFuel old.data new.data s.data.length s.data)

/-- Index of the last `.` in a character list, if any
(the search of Python `os.path.splitext`). -/
def lastDotIdx : List Char → Option Nat
  | [] => none
  | c :: cs =>
    match lastDotIdx cs with
    | some i => some (i + 1)
    | none => if c = '.' then some 0 else none

/-- Model of `os.path.basename` on posix paths: the part after the last
separator. -/
def basenameOf (p : String) : String := (splitOnSlash p).getLastD ""

/-- Extension part of Python `os.path.splitext(p)[1]`: the suffix from the
last dot of the basename, empty when the basename has no dot or only leading
dots (so `.so` as a whole filename has no extension). -/
def splitextExt (p : String) : String :=
  let cs := (basenameOf p).toList
  match lastDotIdx cs with
  | none => ""
  | some s => if (cs.take s).any (fun c => c ≠ '.') then String.mk (cs.drop s) else ""

/-- Value of Python `os.name`: `nt` on Windows, `posix` on macOS and Linux. -/
inductive OSName where
  | nt
  | posix
deriving Repr, DecidableEq

/-- Abstract filesystem as seen through the `os` / `os.path` queries that
`find_vst_binary_in_bundle` performs. -/
structure FS where
  isFile : String → Bool
  isDir : String → Bool
  pathExists : String → Bool
  listdir : String → List String

/-- Extensions accepted for a direct binary file
(vst_automation.py line 117). -/
def recognizedExts : List String := [".so", ".vst3", ".dll", ".component", ".au"]

/-- Named-file search of lines 136-140: for each extension, form
`basename(path)` with `.vst3` replaced by the extension and test for
existence under `base`.  Python `str.replace` replaces every occurrence,
as does `String.replace`. -/
def namedSearch (fs : FS) (path base : String) : List String → Option String
  | [] => none
  | ext :: rest =>
    let plugin_name := strReplace (basenameOf path) ".vst3" ext
    let full_path := pjoin base plugin_name
    if fs.pathExists full_path then some full_path
    else namedSearch fs path base rest

/-- Fallback search of lines 142-146: for each extension, list `base` and
return the first entry ending in the extension. -/
def fallbackSearch (fs : FS) (base : String) : List String → Option String
  | [] => none
  | ext :: rest =>
    match (fs.listdir base).filter (fun f => strEndsWith f ext) with
    | [] => fallbackSearch fs base rest
    | f :: _ => some (pjoin base f)

/-- The Linux loop of lines 131-146: for each candidate `Contents`
subdirectory that exists, try the named search then the fallback search over
extensions `.so` and `.vst3`; a miss moves on to the next candidate. -/
def linuxDirSearch (fs : FS) (path : String) : List String → Option String
  | [] => none
  | d :: rest =>
    let base_path := pjoin (pjoin path "Contents") d
    if fs.pathExists base_path then
      match namedSearch fs path base_path [".so", ".vst3"] with
      | some r => some r
      | none =>
        match fallbackSearch fs base_path [".so", ".vst3"] with
        | some r => some r
        | none => linuxDirSearch fs path rest
    else linuxDirSearch fs path rest

/-- Model of `find_vst_binary_in_bundle` (vst_automation.py lines 104-151).
A regular file is returned unchanged when its (lowercased) extension is
recognized (lines 114-119).  For a `.vst3` bundle directory: on Windows the
code only assigns an unused glob string and falls through to `return None`
(lines 124-125, 148-149); under posix, the presence of `/Library` selects the
macOS branch, which likewise assigns an unused glob string and returns
`None` (lines 127-128); otherwise the Linux search of lines 130-146 runs. -/
def find_vst_binary_in_bundle (osname : OSName) (fs : FS) (path : String) :
    Option String :=
  if fs.isFile path then
    if recognizedExts.contains (splitextExt (strToLower path)) then some path
    else none
  else if strEndsWith (strToLower path) ".vst3" && fs.isDir path then
    match osname with
    | OSName.nt =>
      let _binary_path := pjoin (pjoin (pjoin path "Contents") "x86_64-win") "*.vst3"
      none
    | OSName.posix =>
      if fs.pathExists "/Library" then
        let _binary_path := pjoin (pjoin (pjoin path "Contents") "MacOS") "*.component"
        none
      else
        linuxDirSearch fs path ["x86_64-linux", "x86_64"]
  else none

/-- Concrete directory tree, used to model `os.walk` and to derive the
`os.path` queries for the scanner. -/
inductive FSTree where
  | file (name : String)
  | dir (name : String) (children : List FSTree)

/-- Name of a tree node. -/
def FSTree.nodeName : FSTree → String
  | .file n => n
  | .dir n _ => n

/-- First child with the given name, as directory lookup. -/
def childNamed (s : String) : List FSTree → Option FSTree
  | [] => none
  | t :: ts => if t.nodeName = s then some t else childNamed s ts

/-- Walk a path, given as separator-split segments, down a tree node. -/
def findBySegs : List String → FSTree → Option FSTree
  | [], t => some t
  | _ :: _, FSTree.file _ => none
  | s :: rest, FSTree.dir _ cs =>
    match childNamed s cs with
    | some c => findBySegs rest c
    | none => none

/-- Resolve an absolute-in-tree path string against a tree root. -/
def treeResolve (t : FSTree) (p : String) : Option FSTree :=
  match splitOnSlash p with
  | [] => none
  | s :: rest => if s = t.nodeName then findBySegs rest t else none

/-- The `os` / `os.path` view of a concrete tree. -/
def treeFS (t : FSTree) : FS where
  isFile p := match treeResolve t p with
    | some (FSTree.file _) => true
    | _ => false
  isDir p := match treeResolve t p with
    | some (FSTree.dir _ _) => true
    | _ => false
  pathExists p := (treeResolve t p).isSome
  listdir p := match treeResolve t p with
    | some (FSTree.dir _ cs) => cs.map FSTree.nodeName
    | _ => []

/-- Regular-file names among a directory's children: the `filenames`
component of an `os.walk` entry.  Directories are reported separately by
`os.walk` (in `dirnames`) and never appear here. -/
def fileNames (ts : List FSTree) : List String :=
  ts.filterMap fun t =>
    match t with
    | FSTree.file n => some n
    | FSTree.dir _ _ => none

mutual

/-- Top-down `os.walk`: the pairs `(root, filenames)` for a node and its
subdirectories.  Walking a non-directory yields nothing. -/
def walkFrom (root : String) : FSTree → List (String × List String)
  | FSTree.file _ => []
  | FSTree.dir _ cs => (root, fileNames cs) :: walkChildren root cs

/-- Walks of the subdirectories among `cs`, in order. -/
def walkChildren (root : String) : List FSTree → List (String × List String)
  | [] => []
  | FSTree.file _ :: ts => walkChildren root ts
  | FSTree.dir n cs :: ts =>
    walkFrom (pjoin root n) (FSTree.dir n cs) ++ walkChildren root ts

end

/-- Extensions of the scanner (vst_automation.py line 176). -/
def vst_extensions : List String := [".vst3", ".component", ".au", ".so"]

/-- Model of the second (shadowing) `list_available_plugins`
(vst_automation.py lines 174-191): walk the tree, and for each walked
*file* whose lowercased name ends in a recognized extension, either resolve
it as a bundle when it is a `.vst3` directory (keeping the resolved binary
only when found) or collect the path itself.  The directory branch tests
`os.path.isdir` on a path taken from `os.walk`'s file list. -/
def list_available_plugins (osname : OSName) (t : FSTree) : List String :=
  let fs := treeFS t
  (walkFrom t.nodeName t).flatMap fun rf =>
    rf.2.flatMap fun file =>
      if vst_extensions.any (fun e => strEndsWith (strToLower file) e) then
        let full_path := pjoin rf.1 file
        if fs.isDir full_path && strEndsWith (strToLower full_path) ".vst3" then
          match find_vst_binary_in_bundle osname fs full_path with
          | some binary_path => [binary_path]
          | none => []
        else [full_path]
      else []

/-- Modelled from the spec (section 4.1): the standard 12-tone chromatic
cycle, selected by `note mod 12`.  This is the spec-side counterpart used to
check `midi_to_note_name` by refinement. -/
def specChromaticName (r : Nat) : String :=
  match r with
  | 0 => "C"
  | 1 => "C#"
  | 2 => "D"
  | 3 => "D#"
  | 4 => "E"
  | 5 => "F"
  | 6 => "F#"
  | 7 => "G"
  | 8 => "G#"
  | 9 => "A"
  | 10 => "A#"
  | _ => "B"

/-- Modelled from the spec (section 4.1): chromatic name at `n mod 12`
concatenated with octave `floor(n / 12) - 1`. -/
def specNoteName (n : Nat) : String :=
  specChromaticName (n % 12) ++ toString ((n : Int) / 12 - 1)

/-- Default render job used only to state `List.getD` facts. -/
def blankJob : RenderJob := { note := 0, cc_num := 0, cc_label := "", cc_val := 0 }

/-- Default CC-mapping entry used only to state `List.getD` facts. -/
def blankEntry : Nat × String := (0, "")

/-- Concrete configuration for witnesses: the end-to-end example of spec
section 8.6 (notes 60-61, modulation CC sweep). -/
def cfgW : AutomationConfig :=
  { sample_rate := 44100, duration := 2, note_min := 60, note_max := 61,
    output_dir := "output" }

/-- Environment in which every render and every save succeeds. -/
def okEnv : RenderEnv :=
  { render := fun _ _ _ => none, save := fun _ => none }

/-- Environment in which the render of the third enumerated job of `cfgW`
with mapping `1 ↦ mod` and values `[0, 127]` (note 61, CC value 0) raises
`RenderError`, and every other call succeeds. -/
def failEnv : RenderEnv :=
  { render := fun ms _ _ =>
      if ms = messagesFor cfgW { note := 61, cc_num := 1, cc_label := "mod", cc_val := 0 }
      then some "RenderError" else none,
    save := fun _ => none }

/-- Filesystem with one regular plugin binary file, nothing else. -/
def plainFileFS : FS :=
  { isFile := fun p => p = "home/plug.so",
    isDir := fun _ => false,
    pathExists := fun p => p = "home/plug.so",
    listdir := fun _ => [] }

/-- Simulated Windows layout: bundle directory `Foo.vst3` holding the
binary `Contents/x86_64-win/Foo.vst3` that matches the bundle's base name. -/
def winBundleFS : FS :=
  { isFile := fun p => p = "Foo.vst3/Contents/x86_64-win/Foo.vst3",
    isDir := fun p => p = "Foo.vst3" ∨ p = "Foo.vst3/Contents" ∨
      p = "Foo.vst3/Contents/x86_64-win",
    pathExists := fun p => p = "Foo.vst3" ∨ p = "Foo.vst3/Contents" ∨
      p = "Foo.vst3/Contents/x86_64-win" ∨
      p = "Foo.vst3/Contents/x86_64-win/Foo.vst3",
    listdir := fun p =>
      if p = "Foo.vst3/Contents/x86_64-win" then ["Foo.vst3"] else [] }

/-- Simulated Linux layout of spec section 8.5: a `.vst3` bundle directory
with `Contents/x86_64-linux/Synth.so` inside. -/
def linuxBundleTree : FSTree :=
  FSTree.dir "plugins"
    [FSTree.dir "Synth.vst3"
      [FSTree.dir "Contents"
        [FSTree.dir "x86_64-linux" [FSTree.file "Synth.so"]]]]

/-- Empty bundle directory of spec section 8.5. -/
def emptyBundleTree : FSTree :=
  FSTree.dir "plugins" [FSTree.dir "Empty.vst3" []]

/-- Directory tree holding a bundle *directory* whose name ends in a
recognized plugin extension, with no recognizable file inside. -/
def componentBundleTree : FSTree :=
  FSTree.dir "plugins" [FSTree.dir "Eq.component" [FSTree.file "data.txt"]]

/-- Directory tree holding only regular files, some with plugin
extensions, plus a subdirectory. -/
def filesOnlyTree : FSTree :=
  FSTree.dir "plugins"
    [FSTree.file "fx.so", FSTree.file "eq.component", FSTree.file "readme.txt",
     FSTree.dir "sub" [FSTree.file "b.au"]]

/-- Modelled from the spec (section 4.3, Linux branch of the amended C4):
search one internal bundle subdirectory.  When `base` exists, return the
binary matching the bundle's base name — first the base name with `.vst3`
replaced by `.so`, then the base name itself — or, failing that, the first
file listed in `base` ending in `.so`, or failing that the first ending in
`.vst3`; nothing otherwise. -/
def specSearchOneDir (fs : FS) (path base : String) : Option String :=
  if fs.pathExists base then
    let named_so := pjoin base (strReplace (basenameOf path) ".vst3" ".so")
    let named_v3 := pjoin base (basenameOf path)
    if fs.pathExists named_so then some named_so
    else if fs.pathExists named_v3 then some named_v3
    else
      match (fs.listdir base).filter (fun f => strEndsWith f ".so") with
      | f :: _ => some (pjoin base f)
      | [] =>
        match (fs.listdir base).filter (fun f => strEndsWith f ".vst3") with
        | f :: _ => some (pjoin base f)
        | [] => none
  else none

/-- Modelled from the spec (section 4.3, amended C4): the Linux bundle
search tries `Contents/x86_64-linux/` first and `Contents/x86_64/` second,
each as `specSearchOneDir`, keeping the first hit. -/
def specLinuxResolve (fs : FS) (path : String) : Option String :=
  match specSearchOneDir fs path (pjoin (pjoin path "Contents") "x86_64-linux") with
  | some r => some r
  | none => specSearchOneDir fs path (pjoin (pjoin path "Contents") "x86_64")

/-- Bundle whose inner binary neither matches the bundle's base name nor
lives in the first candidate directory: resolving it exercises the
`Contents/x86_64/` fallback and the directory-listing fallback. -/
def fallbackBundleTree : FSTree :=
  FSTree.dir "p"
    [FSTree.dir "Bundle.vst3"
      [FSTree.dir "Contents"
        [FSTree.dir "x86_64" [FSTree.file "other.so"]]]]

theorem length_flatMap_uniform {α β : Type} (f : α → List β) (k : Nat) :
    ∀ l : List α, (∀ a ∈ l, (f a).length = k) →
      (l.flatMap f).length = l.length * k := by
  intro l
  induction l with
  | nil => intro _; simp
  | cons a t ih =>
    intro h
    rw [List.flatMap_cons, List.length_append, h a (by simp),
      ih (fun x hx => h x (List.mem_cons_of_mem a hx))]
    simp [List.length_cons, Nat.succ_mul, Nat.add_comm]

theorem getD_flatMap_uniform {α β : Type} (f : α → List β) (k : Nat)
    (dA : α) (dB : β) :
    ∀ (l : List α) (i : Nat), (∀ a ∈ l, (f a).length = k) → i < l.length * k →
      (l.flatMap f).getD i dB = (f (l.getD (i / k) dA)).getD (i % k) dB := by
  intro l
  induction l with
  | nil => intro i _ hi; simp at hi
  | cons a t ih =>
    intro i hlen hi
    have hfa : (f a).length = k := hlen a (by simp)
    rw [List.flatMap_cons]
    by_cases hik : i < k
    · rw [List.getD_append _ _ _ _ (by rw [hfa]; exact hik),
        Nat.div_eq_of_lt hik, Nat.mod_eq_of_lt hik, List.getD_cons_zero]
    · push_neg at hik
      have hk : 0 < k := by
        rcases Nat.eq_zero_or_pos k with h0 | h0
        · subst h0; simp at hi
        · exact h0
      have hi' : i - k < t.length * k := by
        rw [Nat.sub_lt_iff_lt_add hik]
        calc i < (a :: t).length * k := hi
        _ = k + t.length * k := by
          rw [List.length_cons, Nat.succ_mul, Nat.add_comm]
      rw [List.getD_append_right _ _ _ _ (by rw [hfa]; exact hik), hfa,
        ih (i - k) (fun x hx => hlen x (List.mem_cons_of_mem a hx)) hi',
        Nat.div_eq_sub_div hk hik, Nat.mod_eq_sub_mod hik, List.getD_cons_succ]

theorem jobsForNote_length (note : Nat) (cc_mappings : List (Nat × String))
    (cc_values : List Nat) :
    (jobsForNote note cc_mappings cc_values).length =
      cc_mappings.length * cc_values.length := by
  unfold jobsForNote
  exact length_flatMap_uniform _ cc_values.length cc_mappings
    (fun p _ => List.length_map cc_values _)

theorem sweepJobs_length (note_min note_max : Nat)
    (cc_mappings : List (Nat × String)) (cc_values : List Nat) :
    (sweepJobs note_min note_max cc_mappings cc_values).length =
      (note_max + 1 - note_min) * (cc_mappings.length * cc_values.length) := by
  unfold sweepJobs
  rw [length_flatMap_uniform _ (cc_mappings.length * cc_values.length) _
    (fun note _ => jobsForNote_length note cc_mappings cc_values)]
  rw [List.length_range']

theorem sweepJobs_getD (note_min note_max : Nat)
    (cc_mappings : List (Nat × String)) (cc_values : List Nat) (i : Nat)
    (hi : i < (note_max + 1 - note_min) * (cc_mappings.length * cc_values.length)) :
    (sweepJobs note_min note_max cc_mappings cc_values).getD i blankJob =
      { note := note_min + i / (cc_mappings.length * cc_values.length),
        cc_num := (cc_mappings.getD
          (i % (cc_mappings.length * cc_values.length) / cc_values.length)
          blankEntry).1,
        cc_label := (cc_mappings.getD
          (i % (cc_mappings.length * cc_values.length) / cc_values.length)
          blankEntry).2,
        cc_val := cc_values.getD (i % cc_values.length) 0 } := by
  have hK : 0 < cc_mappings.length * cc_values.length := by
    rcases Nat.eq_zero_or_pos (cc_mappings.length * cc_values.length) with h0 | h0
    · rw [h0, Nat.mul_zero] at hi; exact absurd hi (Nat.not_lt_zero i)
    · exact h0
  have hV : 0 < cc_values.length := by
    rcases Nat.eq_zero_or_pos cc_values.length with h0 | h0
    · rw [h0, Nat.mul_zero] at hK; exact absurd hK (lt_irrefl 0)
    · exact h0
  have hrange : i < (List.range' note_min (note_max + 1 - note_min)).length *
      (cc_mappings.length * cc_values.length) := by
    rw [List.length_range']; exact hi
  unfold sweepJobs
  rw [getD_flatMap_uniform _ (cc_mappings.length * cc_values.length) 0 blankJob _ i
    (fun note _ => jobsForNote_length note cc_mappings cc_values) hrange]
  have hdivlt : i / (cc_mappings.length * cc_values.length) <
      note_max + 1 - note_min := (Nat.div_lt_iff_lt_mul hK).mpr hi
  have hnote : (List.range' note_min (note_max + 1 - note_min)).getD
      (i / (cc_mappings.length * cc_values.length)) 0 =
      note_min + i / (cc_mappings.length * cc_values.length) := by
    rw [List.getD_eq_getElem _ _ (by rw [List.length_range']; exact hdivlt),
      List.getElem_range', Nat.one_mul]
  rw [hnote]
  have hmodK : i % (cc_mappings.length * cc_values.length) <
      cc_mappings.length * cc_values.length := Nat.mod_lt i hK
  unfold jobsForNote
  rw [getD_flatMap_uniform _ cc_values.length blankEntry blankJob _ _
    (fun p _ => List.length_map cc_values _) hmodK]
  have hmodmod : i % (cc_mappings.length * cc_values.length) % cc_values.length =
      i % cc_values.length :=
    Nat.mod_mod_of_dvd i (Dvd.intro cc_mappings.length (Nat.mul_comm _ _))
  rw [hmodmod]
  have hvallt : i % cc_values.length < cc_values.length := Nat.mod_lt i hV
  rw [List.getD_eq_getElem _ _ (by rw [List.length_map]; exact hvallt),
    List.getElem_map, ← List.getD_eq_getElem cc_values 0 hvallt]

theorem flatMap_nil_of {α β : Type} (l : List α) (f : α → List β)
    (h : ∀ a ∈ l, f a = []) : l.flatMap f = [] := by
  induction l with
  | nil => rfl
  | cons a t ih =>
    rw [List.flatMap_cons, h a (by simp), List.nil_append,
      ih (fun x hx => h x (List.mem_cons_of_mem a hx))]

theorem jobsForNote_nil_values (note : Nat) (cc_mappings : List (Nat × String)) :
    jobsForNote note cc_mappings [] = [] :=
  flatMap_nil_of cc_mappings _ (fun _ _ => rfl)

theorem sweepJobs_nil_values (note_min note_max : Nat)
    (cc_mappings : List (Nat × String)) :
    sweepJobs note_min note_max cc_mappings [] = [] :=
  flatMap_nil_of _ _ (fun note _ => jobsForNote_nil_values note cc_mappings)

theorem runJobsAux_success (env : RenderEnv) (config : AutomationConfig) :
    ∀ js : List RenderJob,
      (∀ j ∈ js, renderCall env config j = none ∧
        env.save (pjoin config.output_dir (outputFilename j)) = none) →
      runJobsAux env config js =
        { rendered := js,
          written := js.map (fun j => pjoin config.output_dir (outputFilename j)),
          err := none } := by
  intro js
  induction js with
  | nil => intro _; rfl
  | cons j t ih =>
    intro h
    have hj := h j (by simp)
    simp only [runJobsAux, hj.1, hj.2,
      ih (fun x hx => h x (List.mem_cons_of_mem j hx)), List.map_cons]

theorem runJobsAux_abort (env : RenderEnv) (config : AutomationConfig) :
    ∀ (js : List RenderJob) (k : Nat) (e : String), k < js.length →
      (∀ i, i < k → renderCall env config (js.getD i blankJob) = none ∧
        env.save (pjoin config.output_dir (outputFilename (js.getD i blankJob))) = none) →
      (renderCall env config (js.getD k blankJob) = some e ∨
        (renderCall env config (js.getD k blankJob) = none ∧
         env.save (pjoin config.output_dir (outputFilename (js.getD k blankJob))) = some e)) →
      runJobsAux env config js =
        { rendered := js.take (k + 1),
          written := (js.take k).map
            (fun j => pjoin config.output_dir (outputFilename j)),
          err := some e } := by
  intro js
  induction js with
  | nil => intro k e hk _ _; simp at hk
  | cons j t ih =>
    intro k e hk hprev hfail
    cases k with
    | zero =>
      rw [List.getD_cons_zero] at hfail
      rcases hfail with hr | ⟨hr, hs⟩
      · simp only [runJobsAux, hr, List.take_succ_cons, List.take_zero,
          List.map_nil]
      · simp only [runJobsAux, hr, hs, List.take_succ_cons, List.take_zero,
          List.map_nil]
    | succ k' =>
      have h0 := hprev 0 (Nat.succ_pos k')
      rw [List.getD_cons_zero] at h0
      have hk' : k' < t.length := by
        rw [List.length_cons] at hk; omega
      have hprev' : ∀ i, i < k' → renderCall env config (t.getD i blankJob) = none ∧
          env.save (pjoin config.output_dir (outputFilename (t.getD i blankJob))) = none := by
        intro i hi
        have := hprev (i + 1) (by omega)
        rwa [List.getD_cons_succ] at this
      have hfail' : renderCall env config (t.getD k' blankJob) = some e ∨
          (renderCall env config (t.getD k' blankJob) = none ∧
           env.save (pjoin config.output_dir (outputFilename (t.getD k' blankJob))) = some e) := by
        rwa [List.getD_cons_succ] at hfail
      simp only [runJobsAux, h0.1, h0.2, ih k' e hk' hprev' hfail',
        List.take_succ_cons, List.map_cons]

theorem strReplaceFuel_self (old : List Char) (hne : old ≠ []) :
    ∀ (fuel : Nat) (cs : List Char), strReplaceFuel old old fuel cs = cs := by
  intro fuel
  induction fuel with
  | zero => intro cs; cases cs <;> rfl
  | succ f ih =>
    intro cs
    cases cs with
    | nil => rfl
    | cons c t =>
      by_cases hp : old.isPrefixOf (c :: t) = true
      · obtain ⟨u, hu⟩ := List.isPrefixOf_iff_prefix.mp hp
        cases old with
        | nil => exact absurd rfl hne
        | cons o os =>
          rw [List.cons_append] at hu
          injection hu with h1 h2
          subst h1
          subst h2
          simp only [strReplaceFuel, hp, if_true, List.length_cons,
            Nat.add_sub_cancel, List.drop_left, ih, List.cons_append]
      · simp [strReplaceFuel, hp, ih]

theorem strReplace_vst3_self (s : String) :
    strReplace s ".vst3" ".vst3" = s := by
  unfold strReplace
  rw [strReplaceFuel_self _ (by decide)]

theorem linuxDirSearch_cons_eq (fs : FS) (path d : String) (rest : List String) :
    linuxDirSearch fs path (d :: rest) =
      match specSearchOneDir fs path (pjoin (pjoin path "Contents") d) with
      | some r => some r
      | none => linuxDirSearch fs path rest := by
  by_cases hb : fs.pathExists (pjoin (pjoin path "Contents") d) = true
  · by_cases hso : fs.pathExists (pjoin (pjoin (pjoin path "Contents") d)
        (strReplace (basenameOf path) ".vst3" ".so")) = true
    · simp [linuxDirSearch, namedSearch, specSearchOneDir, hb, hso]
    · by_cases hv3 : fs.pathExists (pjoin (pjoin (pjoin path "Contents") d)
          (basenameOf path)) = true
      · simp [linuxDirSearch, namedSearch, specSearchOneDir, hb, hso,
          strReplace_vst3_self, hv3]
      · cases hfso : (fs.listdir (pjoin (pjoin path "Contents") d)).filter
            (fun f => strEndsWith f ".so") with
        | cons f fr =>
          simp [linuxDirSearch, namedSearch, fallbackSearch, specSearchOneDir,
            hb, hso, strReplace_vst3_self, hv3, hfso]
        | nil =>
          cases hfv3 : (fs.listdir (pjoin (pjoin path "Contents") d)).filter
              (fun f => strEndsWith f ".vst3") with
          | cons f fr =>
            simp [linuxDirSearch, namedSearch, fallbackSearch, specSearchOneDir,
              hb, hso, strReplace_vst3_self, hv3, hfso, hfv3]
          | nil =>
            simp [linuxDirSearch, namedSearch, fallbackSearch, specSearchOneDir,
              hb, hso, strReplace_vst3_self, hv3, hfso, hfv3]
  · simp [linuxDirSearch, specSearchOneDir, hb]

theorem linuxDirSearch_eq_specLinuxResolve (fs : FS) (path : String) :
    linuxDirSearch fs path ["x86_64-linux", "x86_64"] = specLinuxResolve fs path := by
  rw [linuxDirSearch_cons_eq, linuxDirSearch_cons_eq]
  unfold specLinuxResolve
  cases specSearchOneDir fs path (pjoin (pjoin path "Contents") "x86_64-linux") with
  | some r => rfl
  | none =>
    cases specSearchOneDir fs path (pjoin (pjoin path "Contents") "x86_64") with
    | some r => rfl
    | none => rfl

/-- C1: for note_min ≤ note_max and non-empty cc_mapping and cc_values, the
sweep enumeration of run_midi_cc_automation yields exactly
(note_max - note_min + 1) × |cc_mapping| × |cc_values| jobs, and the job at
position i is the one given by the triple order: notes ascending from
note_min (outer), cc_mapping entries in insertion order (middle), cc_values
in list order (inner). -/
theorem sweep_enumeration_count_and_order
    (note_min note_max : Nat) (cc_mappings : List (Nat × String))
    (cc_values : List Nat) (hle : note_min ≤ note_max)
    (_hm : cc_mappings ≠ []) (_hv : cc_values ≠ []) :
    (sweepJobs note_min note_max cc_mappings cc_values).length =
      (note_max - note_min + 1) * cc_mappings.length * cc_values.length ∧
    ∀ i, i < (note_max - note_min + 1) * cc_mappings.length * cc_values.length →
      (sweepJobs note_min note_max cc_mappings cc_values).getD i blankJob =
        { note := note_min + i / (cc_mappings.length * cc_values.length),
          cc_num := (cc_mappings.getD
            (i % (cc_mappings.length * cc_values.length) / cc_values.length)
            blankEntry).1,
          cc_label := (cc_mappings.getD
            (i % (cc_mappings.length * cc_values.length) / cc_values.length)
            blankEntry).2,
          cc_val := cc_values.getD (i % cc_values.length) 0 } := by
  have hcnt : note_max + 1 - note_min = note_max - note_min + 1 := by omega
  constructor
  · rw [sweepJobs_length, hcnt, Nat.mul_assoc]
  · intro i hi
    exact sweepJobs_getD note_min note_max cc_mappings cc_values i
      (by rw [hcnt, ← Nat.mul_assoc]; exact hi)

/-- Witness for C1 at the concrete sweep of spec section 8.6. -/
theorem sweep_enumeration_count_and_order_witness :
    (sweepJobs 60 61 [(1, "mod")] [0, 127]).length =
      (61 - 60 + 1) * [(1, "mod")].length * [0, 127].length :=
  (sweep_enumeration_count_and_order 60 61 [(1, "mod")] [0, 127]
    (by decide) (by decide) (by decide)).1

/-- C2: for every MIDI note number n in [0, 127], midi_to_note_name agrees
with the spec's description (chromatic cycle selected by n mod 12, octave
floor(n / 12) - 1), and the three fixed reference points hold. -/
theorem note_name_chromatic_convention (n : Nat) (h : n ≤ 127) :
    midi_to_note_name n = specNoteName n ∧
    midi_to_note_name 60 = "C4" ∧ midi_to_note_name 69 = "A4" ∧
    midi_to_note_name 21 = "A0" := by
  refine ⟨?_, by decide, by decide, by decide⟩
  have key : ∀ m, m < 128 → midi_to_note_name m = specNoteName m := by decide
  exact key n (by omega)

/-- Witness for C2 at middle C. -/
theorem note_name_chromatic_convention_witness :
    midi_to_note_name 60 = specNoteName 60 :=
  (note_name_chromatic_convention 60 (by decide)).1

/-- C3: if every job before position k succeeds and the render or the save
of the k-th enumerated job raises an error, run_midi_cc_automation stops
right there and propagates that error: the files of jobs 0..k-1 remain
written, no file for job k or any later job is written, and no job after
the k-th is rendered. -/
theorem run_aborts_on_first_error (ph : PluginHandle)
    (config : AutomationConfig) (cc_mappings : List (Nat × String))
    (cc_values : List Nat) (env : RenderEnv) (dirs0 : List String)
    (k : Nat) (e : String)
    (hk : k < (sweepJobs config.note_min config.note_max cc_mappings cc_values).length)
    (hprev : ∀ i, i < k →
      renderCall env config
        ((sweepJobs config.note_min config.note_max cc_mappings cc_values).getD i blankJob) = none ∧
      env.save (pjoin config.output_dir (outputFilename
        ((sweepJobs config.note_min config.note_max cc_mappings cc_values).getD i blankJob))) = none)
    (hfail : renderCall env config
        ((sweepJobs config.note_min config.note_max cc_mappings cc_values).getD k blankJob) = some e ∨
      (renderCall env config
        ((sweepJobs config.note_min config.note_max cc_mappings cc_values).getD k blankJob) = none ∧
       env.save (pjoin config.output_dir (outputFilename
        ((sweepJobs config.note_min config.note_max cc_mappings cc_values).getD k blankJob))) = some e)) :
    run_midi_cc_automation (some ph) config cc_mappings cc_values env dirs0 =
      { dirs := makedirs config.output_dir dirs0,
        rendered := (sweepJobs config.note_min config.note_max cc_mappings cc_values).take (k + 1),
        written := ((sweepJobs config.note_min config.note_max cc_mappings cc_values).take k).map
          (fun j => pjoin config.output_dir (outputFilename j)),
        err := some e } := by
  simp only [run_midi_cc_automation,
    runJobsAux_abort env config _ k e hk hprev hfail]

/-- Witness for C3: in the spec section 8.6 scenario, a render failure on
the third job leaves the first two files written, renders no fourth job,
and propagates RenderError. -/
theorem run_aborts_on_first_error_witness :
    run_midi_cc_automation (some PluginHandle.mk') cfgW [(1, "mod")] [0, 127] failEnv [] =
      { dirs := makedirs cfgW.output_dir [],
        rendered := (sweepJobs cfgW.note_min cfgW.note_max [(1, "mod")] [0, 127]).take (2 + 1),
        written := ((sweepJobs cfgW.note_min cfgW.note_max [(1, "mod")] [0, 127]).take 2).map
          (fun j => pjoin cfgW.output_dir (outputFilename j)),
        err := some "RenderError" } :=
  run_aborts_on_first_error PluginHandle.mk' cfgW [(1, "mod")] [0, 127] failEnv []
    2 "RenderError" (by decide) (by decide) (by decide)

/-- C6: the output filename is a pure deterministic function of the render
job with the form note-name_ccNUM_LABEL_VALUE.wav, and for every run whose
render and save calls all succeed the files written are exactly the jobs'
filenames joined onto the output directory, in sweep order. -/
theorem filename_deterministic_form :
    (∀ note cc_num cc_val : Nat, ∀ cc_label : String,
      outputFilename { note := note, cc_num := cc_num, cc_label := cc_label, cc_val := cc_val } =
        midi_to_note_name note ++ "_cc" ++ toString cc_num ++ "_" ++
          cc_label ++ "_" ++ toString cc_val ++ ".wav") ∧
    (∀ (ph : PluginHandle) (config : AutomationConfig)
      (cc_mappings : List (Nat × String)) (cc_values : List Nat)
      (env : RenderEnv) (dirs0 : List String),
      (∀ j ∈ sweepJobs config.note_min config.note_max cc_mappings cc_values,
        renderCall env config j = none ∧
        env.save (pjoin config.output_dir (outputFilename j)) = none) →
      (run_midi_cc_automation (some ph) config cc_mappings cc_values env dirs0).written =
        (sweepJobs config.note_min config.note_max cc_mappings cc_values).map
          (fun j => pjoin config.output_dir (outputFilename j))) := by
  constructor
  · intro note cc_num cc_val cc_label
    rfl
  · intro ph config cc_mappings cc_values env dirs0 h
    simp only [run_midi_cc_automation, runJobsAux_success env config _ h]

/-- Witness for C6 on the concrete all-success run. -/
theorem filename_deterministic_form_witness :
    (run_midi_cc_automation (some PluginHandle.mk') cfgW [(1, "mod")] [0, 127] okEnv []).written =
      (sweepJobs cfgW.note_min cfgW.note_max [(1, "mod")] [0, 127]).map
        (fun j => pjoin cfgW.output_dir (outputFilename j)) :=
  filename_deterministic_form.2 PluginHandle.mk' cfgW [(1, "mod")] [0, 127] okEnv []
    (by decide)

/-- C7: with a loaded plugin and an empty cc_values list,
run_midi_cc_automation renders no job, writes no file, and raises no
error (the output directory is still created). -/
theorem empty_cc_values_no_jobs (ph : PluginHandle) (config : AutomationConfig)
    (cc_mappings : List (Nat × String)) (env : RenderEnv) (dirs0 : List String) :
    run_midi_cc_automation (some ph) config cc_mappings [] env dirs0 =
      { dirs := makedirs config.output_dir dirs0, rendered := [], written := [],
        err := none } := by
  simp only [run_midi_cc_automation, sweepJobs_nil_values, runJobsAux]

/-- C8: with no loaded plugin, run_midi_cc_automation fails with the
not-loaded RuntimeError message, renders nothing, writes nothing, and does
not touch the directory set. -/
theorem not_loaded_raises (config : AutomationConfig)
    (cc_mappings : List (Nat × String)) (cc_values : List Nat)
    (env : RenderEnv) (dirs0 : List String) :
    run_midi_cc_automation none config cc_mappings cc_values env dirs0 =
      { dirs := dirs0, rendered := [], written := [],
        err := some "Plugin not loaded. Call load_plugin() first." } := rfl

/-- C10: with a loaded plugin, config.output_dir exists after every run,
whatever the mappings, values, environment or prior filesystem (so also for
runs that write zero files); and the creation is idempotent: when the
directory already exists the directory set is unchanged. -/
theorem output_dir_created_idempotently (ph : PluginHandle)
    (config : AutomationConfig) (cc_mappings : List (Nat × String))
    (cc_values : List Nat) (env : RenderEnv) (dirs0 : List String) :
    config.output_dir ∈
      (run_midi_cc_automation (some ph) config cc_mappings cc_values env dirs0).dirs ∧
    (config.output_dir ∈ dirs0 →
      (run_midi_cc_automation (some ph) config cc_mappings cc_values env dirs0).dirs = dirs0) := by
  constructor
  · show config.output_dir ∈ makedirs config.output_dir dirs0
    unfold makedirs
    by_cases h : config.output_dir ∈ dirs0
    · rw [if_pos h]; exact h
    · rw [if_neg h]; exact List.mem_cons_self _ _
  · intro h
    show makedirs config.output_dir dirs0 = dirs0
    unfold makedirs
    rw [if_pos h]

/-- Witness for C10: when the output directory already exists, the run
leaves the directory set unchanged. -/
theorem output_dir_created_idempotently_witness :
    (run_midi_cc_automation (some PluginHandle.mk') cfgW [] [] okEnv ["output"]).dirs = ["output"] :=
  (output_dir_created_idempotently PluginHandle.mk' cfgW [] [] okEnv ["output"]).2
    (by decide)

/-- C9: a regular file whose extension (in the sense of os.path.splitext of
the lowercased path) is one of .so, .vst3, .dll, .component, .au is returned
unchanged by find_vst_binary_in_bundle on every platform. -/
theorem resolver_returns_file_unchanged (osname : OSName) (fs : FS)
    (path : String) (hfile : fs.isFile path = true)
    (hext : recognizedExts.contains (splitextExt (strToLower path)) = true) :
    find_vst_binary_in_bundle osname fs path = some path := by
  simp only [find_vst_binary_in_bundle, hfile, hext, if_true]

/-- Witness for C9 at a plain .so file path. -/
theorem resolver_returns_file_unchanged_witness :
    find_vst_binary_in_bundle OSName.posix plainFileFS "home/plug.so" =
      some "home/plug.so" :=
  resolver_returns_file_unchanged OSName.posix plainFileFS "home/plug.so"
    (by decide) (by decide)

/-- C4 counterexample: on a simulated Windows filesystem in which the
bundle directory Foo.vst3 holds the binary Contents/x86_64-win/Foo.vst3
matching the bundle's base name, find_vst_binary_in_bundle returns nothing
instead of that binary: the claimed search does not happen on Windows. -/
theorem bundle_resolver_windows_counterexample :
    winBundleFS.isDir "Foo.vst3" = true ∧
    winBundleFS.isFile "Foo.vst3/Contents/x86_64-win/Foo.vst3" = true ∧
    find_vst_binary_in_bundle OSName.nt winBundleFS "Foo.vst3" = none := by decide

/-- C4 (amended): for a .vst3 bundle directory, only the Linux branch
searches: on Windows, and on macOS (posix with /Library present), the
internal subpath is computed but never searched and nothing is returned;
on Linux the resolver behaves exactly as specLinuxResolve, the
spec-modelled search of Contents/x86_64-linux/ then Contents/x86_64/ that
returns the binary matching the bundle's base name (.so first, then the
base name itself) or, failing that, the first listed .so file, or the first
listed .vst3 file; and when neither candidate subdirectory exists (in
particular for an empty bundle directory) nothing is returned on any
platform. -/
theorem bundle_resolver_platform_behavior :
    (∀ (fs : FS) (path : String), fs.isFile path = false →
      find_vst_binary_in_bundle OSName.nt fs path = none) ∧
    (∀ (fs : FS) (path : String), fs.isFile path = false →
      fs.pathExists "/Library" = true →
      find_vst_binary_in_bundle OSName.posix fs path = none) ∧
    (∀ (fs : FS) (path : String), fs.isFile path = false →
      fs.pathExists "/Library" = false →
      strEndsWith (strToLower path) ".vst3" = true → fs.isDir path = true →
      find_vst_binary_in_bundle OSName.posix fs path = specLinuxResolve fs path) ∧
    (∀ (osname : OSName) (fs : FS) (path : String), fs.isFile path = false →
      fs.pathExists (pjoin (pjoin path "Contents") "x86_64-linux") = false →
      fs.pathExists (pjoin (pjoin path "Contents") "x86_64") = false →
      find_vst_binary_in_bundle osname fs path = none) := by
  refine ⟨?_, ?_, ?_, ?_⟩
  · intro fs path hfile
    simp [find_vst_binary_in_bundle, hfile]
  · intro fs path hfile hlib
    simp [find_vst_binary_in_bundle, hfile, hlib]
  · intro fs path hfile hlib hends hdir
    simp [find_vst_binary_in_bundle, hfile, hlib, hends, hdir,
      linuxDirSearch_eq_specLinuxResolve]
  · intro osname fs path hfile h1 h2
    cases osname with
    | nt => simp [find_vst_binary_in_bundle, hfile]
    | posix =>
      by_cases hlib : fs.pathExists "/Library" = true
      · simp [find_vst_binary_in_bundle, hfile, hlib]
      · simp only [Bool.not_eq_true] at hlib
        simp [find_vst_binary_in_bundle, hfile, hlib, linuxDirSearch, h1, h2]

/-- Witness for the amended C4 at a bundle whose binary sits in the second
candidate directory under a non-matching name: the resolver agrees with the
spec-modelled search, which here goes through the Contents/x86_64/ fallback
and the directory-listing fallback. -/
theorem bundle_resolver_platform_behavior_witness :
    find_vst_binary_in_bundle OSName.posix (treeFS fallbackBundleTree) "p/Bundle.vst3" =
      specLinuxResolve (treeFS fallbackBundleTree) "p/Bundle.vst3" :=
  bundle_resolver_platform_behavior.2.2.1 (treeFS fallbackBundleTree) "p/Bundle.vst3"
    (by decide) (by decide) (by decide) (by decide)

/-- C5: the scanner never collects a bundle directory: a directory whose
name ends in a recognized plugin extension (here plugins/Eq.component) is
absent from the scan result, because os.walk reports directories in its
dirnames component while the loop reads only filenames, so the isdir branch
that would resolve bundles is unreachable.  Regular files with recognized
extensions are collected, recursively and in walk order. -/
theorem scanner_never_collects_bundle_dirs :
    (treeFS componentBundleTree).isDir "plugins/Eq.component" = true ∧
    strEndsWith (strToLower "Eq.component") ".component" = true ∧
    list_available_plugins OSName.posix componentBundleTree = [] ∧
    list_available_plugins OSName.posix filesOnlyTree =
      ["plugins/fx.so", "plugins/eq.component", "plugins/sub/b.au"] := by decide
